import Mathlib

/-!
# Observer — verification of the core orchestration logic

Shallow embedding of the Observer repository's core components and proofs
about them:

* `RecordingManager` (src/app/src/utils/recordingManager.ts) — the
  IDLE/BUFFERING/RECORDING clip-recording state machine.
* `preProcess` (the placeholder-substitution prompt assembler,
  src/README.md, pre-processor listing) — registry-driven placeholder scan.
* the per-agent loop scheduler (src/unnamed/part_014, src/utils/main_loop.ts)
  — `startAgentLoop` / `stopAgentLoop` / `executeAgentIteration`.

External collaborators (model transport, capture hardware, databases) are
modelled as environment parameters; machine behaviour is translated from the
TypeScript source.
-/

namespace Observer

/-! ## Recording manager (src/app/src/utils/recordingManager.ts)

States and data. Blobs (media chunks) are abstracted as `Nat` payloads; only
their identity and count are observable in the properties below. -/

inductive RecordingState
  | IDLE
  | BUFFERING
  | RECORDING
deriving DecidableEq, Repr

inductive RecordableStreamType
  | screen
  | camera
deriving DecidableEq, Repr

/-- MediaRecorder activity as the code observes it (`recorder.state`),
collapsed to recording-vs-inactive. -/
inductive RecState
  | active
  | inactive
deriving DecidableEq, Repr

/-- A MediaRecorder handle: its activity and the data it will still flush as
a final `dataavailable` event when `stop()` is called with a listener
installed. -/
structure Recorder where
  rstate : RecState
  pending : List Nat
deriving DecidableEq, Repr

def Recorder.isActive (r : Recorder) : Bool := r.rstate == RecState.active

structure ClipMarker where
  label : String
  timestamp : Nat
deriving DecidableEq, Repr

/-- A clip as handed to `saveRecordingToDb`: source, blob payload (the chunk
list that formed the Blob), and the marker list passed alongside. -/
structure SavedClip where
  source : RecordableStreamType
  blobs : List Nat
  markers : List ClipMarker
deriving DecidableEq, Repr

/-- `StreamManager.getCurrentState()` as consumed by the recording manager:
which of the four streams are currently present. -/
structure StreamsSnapshot where
  screenVideoStream : Bool
  cameraStream : Bool
  screenAudioStream : Bool
  microphoneStream : Bool
deriving DecidableEq, Repr

/-- The `RecordingManager` class fields. The `recorders` and `chunks` maps
(keys drawn from {screen, camera}) are represented by one field per key;
`recorders.forEach` iterates in insertion order, which is screen before
camera (`streamsToRecord` order in `startNewBuffer`). -/
structure RMState where
  state : RecordingState
  screenRec : Option Recorder
  cameraRec : Option Recorder
  screenChunks : List Nat
  cameraChunks : List Nat
  pendingMarkers : List ClipMarker
deriving DecidableEq, Repr

def RMState.initial : RMState :=
  ⟨RecordingState.IDLE, none, none, [], [], []⟩

/-- `recorder.stop()` issued with no stop listener installed
(`discardCurrentBuffer`): the recorder goes inactive; its final flush lands
in the orphaned chunk array (the chunks map was just cleared), so the
pending data is dropped. -/
def stopRecorder : Option Recorder → Option Recorder
  | none => none
  | some _ => some ⟨RecState.inactive, []⟩

/-- `discardCurrentBuffer()`: `chunks.clear()` then stop every recorder.
The recorders map itself is not cleared by the source. -/
def discardCurrentBuffer (rm : RMState) : RMState :=
  { rm with
    screenChunks := []
    cameraChunks := []
    screenRec := stopRecorder rm.screenRec
    cameraRec := stopRecorder rm.cameraRec }

/-- `discardAndShutdown()`. -/
def discardAndShutdown (rm : RMState) : RMState :=
  { discardCurrentBuffer rm with state := RecordingState.IDLE }

/-- `this.recorders.size`. -/
def recordersSize (rm : RMState) : Nat :=
  (if rm.screenRec.isSome then 1 else 0) + (if rm.cameraRec.isSome then 1 else 0)

/-- `startNewBuffer()`: discard any live recorders, then create a fresh
active recorder (and empty chunk list) per source whose *video* stream is
present; state becomes BUFFERING iff at least one recorder was started,
IDLE otherwise. Audio streams only contribute tracks, never decide recorder
creation. -/
def startNewBuffer (streams : StreamsSnapshot) (rm : RMState) : RMState :=
  let rm1 := if recordersSize rm > 0 then discardAndShutdown rm else rm
  let rm2 := if streams.screenVideoStream then
      { rm1 with screenRec := some ⟨RecState.active, []⟩, screenChunks := [] }
    else rm1
  let rm3 := if streams.cameraStream then
      { rm2 with cameraRec := some ⟨RecState.active, []⟩, cameraChunks := [] }
    else rm2
  if streams.screenVideoStream || streams.cameraStream then
    { rm3 with state := RecordingState.BUFFERING }
  else
    { rm3 with state := RecordingState.IDLE }

/-- `initialize()` (source name: `initialize`): starts the first buffer when
IDLE, otherwise does nothing. -/
def initializeRecording (streams : StreamsSnapshot) (rm : RMState) : RMState :=
  if rm.state = RecordingState.IDLE then startNewBuffer streams rm else rm

/-- `handleEndOfLoop()`: while BUFFERING, discard and restart; while
RECORDING (or IDLE) do nothing. The source path calls no save routine. -/
def handleEndOfLoop (streams : StreamsSnapshot) (rm : RMState) : RMState :=
  if rm.state = RecordingState.BUFFERING then
    startNewBuffer streams (discardCurrentBuffer rm)
  else rm

/-- One source's branch of `saveAndFinishClip`: skip when the recorder is
already inactive with no data; otherwise package the chunks (an active
recorder is stopped first, so its final flush is appended by the
`dataavailable` listener before the stop event runs the save) together with
the pending markers. -/
def finalizeSource (markers : List ClipMarker) (t : RecordableStreamType)
    (rec : Option Recorder) (chunks : List Nat) : List SavedClip :=
  match rec with
  | none => []
  | some r =>
    if r.rstate = RecState.inactive ∧ chunks = [] then []
    else
      let final := if r.rstate = RecState.active then chunks ++ r.pending else chunks
      [⟨t, final, markers⟩]

/-- `saveAndFinishClip()`: early-return when no recorders; otherwise save
each source (screen first, then camera — map insertion order), then clear
the pending markers (the source clears only when non-empty, which is the
same state), then clear the recorder and chunk maps. Returns the clips
passed to `saveRecordingToDb`. -/
def saveAndFinishClip (rm : RMState) : RMState × List SavedClip :=
  if recordersSize rm = 0 then (rm, [])
  else
    let clips :=
      finalizeSource rm.pendingMarkers RecordableStreamType.screen rm.screenRec rm.screenChunks
        ++ finalizeSource rm.pendingMarkers RecordableStreamType.camera rm.cameraRec rm.cameraChunks
    let markers := if rm.pendingMarkers ≠ [] then ([] : List ClipMarker) else rm.pendingMarkers
    ({ rm with
        screenRec := none
        cameraRec := none
        screenChunks := []
        cameraChunks := []
        pendingMarkers := markers }, clips)

/-- `forceStop()`: BUFFERING discards and shuts down; any other state saves
via `saveAndFinishClip`; the state is set to IDLE afterwards in every
case. -/
def forceStop (rm : RMState) : RMState × List SavedClip :=
  if rm.state = RecordingState.BUFFERING then
    ({ discardAndShutdown rm with state := RecordingState.IDLE }, [])
  else
    let r := saveAndFinishClip rm
    ({ r.1 with state := RecordingState.IDLE }, r.2)

/-- `addMarker(label)`: stores the marker in every state; the returned flag
records whether the IDLE warning was logged. -/
def addMarker (label : String) (now : Nat) (rm : RMState) : RMState × Bool :=
  ({ rm with pendingMarkers := rm.pendingMarkers ++ [⟨label, now⟩] },
   decide (rm.state = RecordingState.IDLE))

/-- `startClip()`: BUFFERING becomes RECORDING; otherwise a warning no-op.
The returned flag records whether the unexpected-state warning was
logged. -/
def startClip (rm : RMState) : RMState × Bool :=
  if rm.state = RecordingState.BUFFERING then
    ({ rm with state := RecordingState.RECORDING }, false)
  else (rm, true)

/-- `stopClip()`: while RECORDING, save the clip and start a fresh buffer;
otherwise a warning no-op. -/
def stopClip (streams : StreamsSnapshot) (rm : RMState) : RMState × List SavedClip :=
  if rm.state = RecordingState.RECORDING then
    let r := saveAndFinishClip rm
    (startNewBuffer streams r.1, r.2)
  else (rm, [])

/-- `ondataavailable` for one source: a chunk with positive size emitted by
that source's live recorder is appended to its chunk list. -/
def dataAvailable (t : RecordableStreamType) (blob : Nat) (rm : RMState) : RMState :=
  match t with
  | RecordableStreamType.screen =>
    if rm.screenRec.any Recorder.isActive && decide (blob > 0) then
      { rm with screenChunks := rm.screenChunks ++ [blob] }
    else rm
  | RecordableStreamType.camera =>
    if rm.cameraRec.any Recorder.isActive && decide (blob > 0) then
      { rm with cameraChunks := rm.cameraChunks ++ [blob] }
    else rm

/-- Events driving the recording manager from the outside: its public
methods, plus chunk arrival from the recorders. -/
inductive RMEvent
  | init (streams : StreamsSnapshot)
  | endOfLoop (streams : StreamsSnapshot)
  | clipStart
  | clipStop (streams : StreamsSnapshot)
  | stopAll
  | dataAvail (t : RecordableStreamType) (blob : Nat)
  | mark (label : String) (now : Nat)
deriving DecidableEq, Repr

def RMEvent.isMark : RMEvent → Bool
  | RMEvent.mark _ _ => true
  | _ => false

/-- One external event applied to the manager, together with the clips that
call handed to `saveRecordingToDb`. -/
def stepRM (rm : RMState) : RMEvent → RMState × List SavedClip
  | RMEvent.init s => (initializeRecording s rm, [])
  | RMEvent.endOfLoop s => (handleEndOfLoop s rm, [])
  | RMEvent.clipStart => ((startClip rm).1, [])
  | RMEvent.clipStop s => stopClip s rm
  | RMEvent.stopAll => forceStop rm
  | RMEvent.dataAvail t b => (dataAvailable t b rm, [])
  | RMEvent.mark l n => ((addMarker l n rm).1, [])

/-- Run a sequence of events, accumulating every clip saved along the way. -/
def runRM (rm : RMState) : List RMEvent → RMState × List SavedClip
  | [] => (rm, [])
  | e :: es =>
    let r := stepRM rm e
    let rest := runRM r.1 es
    (rest.1, r.2 ++ rest.2)

/-- A non-IDLE manager always holds at least one active recorder. -/
def hasActiveRecorder (rm : RMState) : Bool :=
  rm.screenRec.any Recorder.isActive || rm.cameraRec.any Recorder.isActive

def RMInv (rm : RMState) : Prop :=
  rm.state ≠ RecordingState.IDLE → hasActiveRecorder rm = true

/-! ## Prompt assembler (src/README.md, pre-processor listing)

`preProcess` iterates over the `processors` registry in entry order; for
each kind it scans the current prompt left to right with a mutable search
index, replacing each match by the handler's replacement text (keeping the
placeholder when the handler returns no text) and appending the handler's
images to the result list. Handler outcomes (capture success/failure,
transcripts, memory contents) are environment parameters: the handler for a
kind is a function of the per-pass invocation index and, for `$MEMORY@id`,
the captured identifier. Prompts are represented as `List Char`. -/

/-- The placeholder kinds, in `processors` registry entry order (see
`registry`). -/
inductive PKind
  | SCREEN_OCR
  | MEMORY
  | SCREEN_64
  | CLIPBOARD
  | MICROPHONE
  | CAMERA
  | SCREEN_AUDIO
  | ALL_AUDIO
deriving DecidableEq, Repr

/-- The two regex shapes in the registry: a literal placeholder, or
`\$MEMORY@([a-zA-Z0-9_]+)` with its capture group. -/
inductive PPattern
  | lit (pat : List Char)
  | memoryRef
deriving DecidableEq, Repr

def patternOf : PKind → PPattern
  | PKind.SCREEN_OCR => PPattern.lit "$SCREEN_OCR".data
  | PKind.MEMORY => PPattern.memoryRef
  | PKind.SCREEN_64 => PPattern.lit "$SCREEN_64".data
  | PKind.CLIPBOARD => PPattern.lit "$CLIPBOARD".data
  | PKind.MICROPHONE => PPattern.lit "$MICROPHONE".data
  | PKind.CAMERA => PPattern.lit "$CAMERA".data
  | PKind.SCREEN_AUDIO => PPattern.lit "$SCREEN_AUDIO".data
  | PKind.ALL_AUDIO => PPattern.lit "$ALL_AUDIO".data

/-- `Object.entries(processors)` order. -/
def registry : List PKind :=
  [PKind.SCREEN_OCR, PKind.MEMORY, PKind.SCREEN_64, PKind.CLIPBOARD,
   PKind.MICROPHONE, PKind.CAMERA, PKind.SCREEN_AUDIO, PKind.ALL_AUDIO]

/-- Does `pat` occur at the head of `s`? -/
def litMatch : List Char → List Char → Bool
  | [], _ => true
  | _ :: _, [] => false
  | p :: ps, c :: cs => p == c && litMatch ps cs

/-- The `[a-zA-Z0-9_]` character class of the MEMORY regex. -/
def isWordChar (c : Char) : Bool := c.isAlphanum || c == '_'

/-- Greedy `([a-zA-Z0-9_]+)` capture. -/
def takeWordChars : List Char → List Char
  | [] => []
  | c :: cs => if isWordChar c then c :: takeWordChars cs else []

/-- Try to match a pattern at the head of `s`; returns match length and the
capture group (empty for literal patterns). -/
def matchAt (p : PPattern) (s : List Char) : Option (Nat × String) :=
  match p with
  | PPattern.lit pat => if litMatch pat s then some (pat.length, "") else none
  | PPattern.memoryRef =>
    if litMatch "$MEMORY@".data s then
      let cap := takeWordChars (s.drop 8)
      if cap.isEmpty then none else some (8 + cap.length, cap.asString)
    else none

/-- `regex.exec` with `lastIndex` set to `idx`: the first match at or after
`idx`. `rem` is the prompt suffix starting at `idx`; returns the absolute
match index, the match length, and the capture. -/
def findFrom (p : PPattern) : List Char → Nat → Option (Nat × Nat × String)
  | [], _ => none
  | c :: cs, idx =>
    match matchAt p (c :: cs) with
    | some r => some (idx, r.1, r.2)
    | none => findFrom p cs (idx + 1)

/-- A handler invocation's outcome: optional replacement text (the
placeholder is kept verbatim when absent) and the images produced. -/
structure ProcResult where
  replacementText : Option String
  images : List String
deriving DecidableEq, Repr

/-- Handler environment: outcome of the `n`-th invocation of a kind's
handler during its pass, given the regex capture. -/
def HandlerEnv := PKind → Nat → String → ProcResult

/-- The inner `while ((match = regex.exec(...)))` loop of `preProcess` for a
single kind: scan `s` from index `cur`, emitting the text between matches
verbatim, the replacement for each match, and the remaining suffix;
accumulate each invocation's images in occurrence order. The fuel bounds the
number of matches (each match advances the search index by at least the
match length). -/
def scanKindAux (h : Nat → String → ProcResult) (p : PPattern) (s : List Char) :
    Nat → Nat → Nat → List Char × List String
  | 0, cur, _ => (s.drop cur, [])
  | fuel + 1, cur, n =>
    match findFrom p (s.drop cur) cur with
    | none => (s.drop cur, [])
    | some (idx, len, cap) =>
      let res := h n cap
      let placeholder := (s.drop idx).take len
      let replacement := match res.replacementText with
        | some t => t.data
        | none => placeholder
      let rest := scanKindAux h p s fuel (idx + len) (n + 1)
      ((s.drop cur).take (idx - cur) ++ replacement ++ rest.1, res.images ++ rest.2)

/-- One registry kind's full pass over the prompt. -/
def scanKind (h : Nat → String → ProcResult) (p : PPattern) (s : List Char) :
    List Char × List String :=
  scanKindAux h p s (s.length + 1) 0 0

structure PreProcessorResult where
  modifiedPrompt : List Char
  images : List String
deriving DecidableEq, Repr

/-- `preProcess(agentId, systemPrompt)`: fold the registry kinds in entry
order over the prompt; each kind rewrites the prompt produced by the
previous kinds and appends its images to the accumulated list (which starts
as the empty list, never absent). -/
def preProcess (h : HandlerEnv) (systemPrompt : List Char) : PreProcessorResult :=
  registry.foldl
    (fun acc k =>
      let r := scanKind (h k) (patternOf k) acc.modifiedPrompt
      ⟨r.1, acc.images ++ r.2⟩)
    ⟨systemPrompt, []⟩

/-- Trace of one kind's pass: the (absolute position, images) contribution
of each occurrence, in processing order. -/
def scanKindTraceAux (h : Nat → String → ProcResult) (p : PPattern) (s : List Char) :
    Nat → Nat → Nat → List (Nat × List String)
  | 0, _, _ => []
  | fuel + 1, cur, n =>
    match findFrom p (s.drop cur) cur with
    | none => []
    | some (idx, len, cap) =>
      (idx, (h n cap).images) :: scanKindTraceAux h p s fuel (idx + len) (n + 1)

def scanKindTrace (h : Nat → String → ProcResult) (p : PPattern) (s : List Char) :
    List (Nat × List String) :=
  scanKindTraceAux h p s (s.length + 1) 0 0

/-- Per-kind image contributions of a sequence of passes, each kind
scanning the prompt as rewritten by the previous kinds. -/
def kindPassesAux (h : HandlerEnv) : List PKind → List Char → List (PKind × List String)
  | [], _ => []
  | k :: ks, p =>
    let r := scanKind (h k) (patternOf k) p
    (k, r.2) :: kindPassesAux h ks r.1

/-- Per-kind image contributions of a whole `preProcess` run, kinds in
registry order. This is the amended ordering specification the assembler is
compared against: registry order first, text order within a kind. -/
def kindPasses (h : HandlerEnv) (s : List Char) : List (PKind × List String) :=
  kindPassesAux h registry s

/-! ## Loop scheduler (src/unnamed/part_014, src/utils/main_loop.ts) -/

/-- `PseudoStreamType` from streamManager, as used by `main_loop.ts`. -/
inductive PseudoStreamType
  | screenVideo
  | camera
  | screenAudio
  | microphone
  | allAudio
deriving DecidableEq, Repr

/-- Modelled from the spec: the StreamResourceManager collaborator. Its
implementation (`streamManager.ts`) is not among the provided sources; per
the spec's external interface it reference-counts holds per requester,
`requestStreamsForAgent` grants the full requested set atomically or fails
without granting anything, `releaseStreamsForAgent` drops every hold of the
agent, and `getCurrentState` reports a stream as present iff some agent
holds it. -/
structure StreamMgrState where
  holds : List (String × PseudoStreamType)
deriving DecidableEq, Repr

def releaseStreamsForAgent (a : String) (sm : StreamMgrState) : StreamMgrState :=
  ⟨sm.holds.filter (fun h => !(h.1 == a))⟩

def requestStreams (a : String) (kinds : List PseudoStreamType)
    (sm : StreamMgrState) : StreamMgrState :=
  ⟨sm.holds ++ kinds.map (fun k => (a, k))⟩

def streamLive (k : PseudoStreamType) (sm : StreamMgrState) : Bool :=
  sm.holds.any (fun h => h.2 == k)

/-- The stream kinds currently held for one agent. -/
def holdsFor (a : String) (sm : StreamMgrState) : List PseudoStreamType :=
  (sm.holds.filter (fun h => h.1 == a)).map Prod.snd

/-- `StreamManager.getCurrentState()` as the recording manager consumes it,
derived from the manager's holds. -/
def currentSnapshot (sm : StreamMgrState) : StreamsSnapshot :=
  ⟨streamLive PseudoStreamType.screenVideo sm,
   streamLive PseudoStreamType.camera sm,
   streamLive PseudoStreamType.screenAudio sm,
   streamLive PseudoStreamType.microphone sm⟩

/-- `streamRequirementsMap` (main_loop.ts). -/
def streamRequirementsMap : List (String × PseudoStreamType) :=
  [("$SCREEN_64", PseudoStreamType.screenVideo),
   ("$SCREEN_OCR", PseudoStreamType.screenVideo),
   ("$CAMERA", PseudoStreamType.camera),
   ("$SCREEN_AUDIO", PseudoStreamType.screenAudio),
   ("$MICROPHONE", PseudoStreamType.microphone),
   ("$ALL_AUDIO", PseudoStreamType.allAudio)]

/-- Does `pat` occur somewhere in `s` (scan of every suffix)? -/
def subSearch (s pat : List Char) : Bool :=
  match s with
  | [] => pat.isEmpty
  | _ :: rest => litMatch pat s || subSearch rest pat

/-- `string.includes(substring)`. -/
def strIncludes (s sub : String) : Bool := subSearch s.data sub.data

/-- The stream kinds required by an agent's prompt template
(`requiredStreams` in `startAgentLoop`). -/
def requiredStreamsOf (systemPrompt : String) : List PseudoStreamType :=
  (streamRequirementsMap.filter (fun p => strIncludes systemPrompt p.1)).map Prod.snd

/-- `CompleteAgent` configuration fields read by the loop. -/
structure CompleteAgent where
  system_prompt : String
  model_name : String
  loop_interval_seconds : ℚ
deriving DecidableEq, Repr

/-- One entry of `activeLoops`: timer handle, running flag, resolved server
address, and whether a token supplier was injected. -/
structure LoopEntry where
  intervalId : Option Nat
  isRunning : Bool
  serverHost : String
  serverPort : String
  hasGetToken : Bool
deriving DecidableEq, Repr

/-- The two externally observable notification channels
(`window.dispatchEvent`). -/
inductive SchedEvent
  | statusChanged (agentId : String) (running : Bool)
  | quotaExceeded (agentId : String)
deriving DecidableEq, Repr

/-- Log-sink messages the properties refer to. -/
inductive LogEvent
  | warnAlreadyRunning (agentId : String)
  | warnStopNotRunning (agentId : String)
  | errorIteration (agentId : String) (msg : String)
  | warnQuota (agentId : String)
  | errorStartFailed (agentId : String) (msg : String)
deriving DecidableEq, Repr

/-- The scheduler's mutable module state: the `activeLoops` record (an
association list keyed by agent id), the stream manager, the recording
manager, the dispatched events, the log sink, every clip saved so far, the
module-level server address, and a counter for fresh `setInterval`
handles. -/
structure SchedState where
  activeLoops : List (String × LoopEntry)
  streams : StreamMgrState
  rm : RMState
  events : List SchedEvent
  logs : List LogEvent
  savedClips : List SavedClip
  serverHost : String
  serverPort : String
  nextTimerId : Nat
deriving Repr

def SchedState.initial : SchedState :=
  ⟨[], ⟨[]⟩, RMState.initial, [], [], [], "localhost", "3838", 0⟩

/-- `activeLoops[agentId]`. -/
def lookupLoop (s : SchedState) (a : String) : Option LoopEntry :=
  s.activeLoops.lookup a

/-- Record update `activeLoops[agentId] = entry`: replace the binding if the
key exists, append otherwise. -/
def setLoop (a : String) (e : LoopEntry) :
    List (String × LoopEntry) → List (String × LoopEntry)
  | [] => [(a, e)]
  | (b, e') :: rest =>
    if b == a then (a, e) :: rest else (b, e') :: setLoop a e rest

/-- `isAgentLoopRunning(agentId)`: `activeLoops[agentId]?.isRunning === true`. -/
def isAgentLoopRunning (s : SchedState) (a : String) : Bool :=
  match lookupLoop s a with
  | some e => e.isRunning
  | none => false

/-- `getRunningAgentIds()`. -/
def getRunningAgentIds (s : SchedState) : List String :=
  (s.activeLoops.filter (fun p => p.2.isRunning)).map Prod.fst

/-- Number of `activeLoops` bindings for an agent id. -/
def countLoop (a : String) (l : List (String × LoopEntry)) : Nat :=
  l.countP (fun p => p.1 == a)

/-- Outcome of the model-transport interaction of one iteration:
`sendPrompt` succeeds (and `postProcess` then succeeds or throws), raises
the distinguished `UnauthorizedError`, or throws any other error. -/
inductive IterOutcome
  | success (postProcessOk : Bool)
  | unauthorized
  | otherFailure (msg : String)
deriving DecidableEq, Repr

/-- Environment of a scheduler call: the configuration store (`getAgent`),
whether a stream request would be granted, the error message it throws when
refused, and the transport outcome of an iteration. Token-supplier failures
are soft (logged, the iteration proceeds) and are not distinguished. -/
structure Env where
  db : String → Option CompleteAgent
  grantStreams : Bool
  streamErrMsg : String
  iter : IterOutcome

/-- `stopAgentLoop(agentId)`: when running, clear the timer, release this
agent's streams, store the entry with the flag and timer cleared, force-stop
the recorder if no agent remains running, and dispatch a stopped
notification; otherwise only log a warning. -/
def stopAgentLoop (a : String) (s : SchedState) : SchedState :=
  match lookupLoop s a with
  | some e =>
    if e.isRunning then
      let s1 := { s with
        streams := releaseStreamsForAgent a s.streams
        activeLoops := setLoop a { e with isRunning := false, intervalId := none } s.activeLoops }
      let s2 :=
        if getRunningAgentIds s1 = [] then
          let r := forceStop s1.rm
          { s1 with rm := r.1, savedClips := s1.savedClips ++ r.2 }
        else s1
      { s2 with events := s2.events ++ [SchedEvent.statusChanged a false] }
    else { s with logs := s.logs ++ [LogEvent.warnStopNotRunning a] }
  | none => { s with logs := s.logs ++ [LogEvent.warnStopNotRunning a] }

/-- `executeAgentIteration(agentId)`: skip when the agent is not running;
re-fetch the agent (a missing agent is a generic caught error); then branch
on the transport outcome: on success run `postProcess` (its failure is
caught and logged) and, in the `finally`, cycle the recording buffer if the
agent is still running; on `UnauthorizedError` stop exactly this agent's
loop and dispatch the quota notification; on any other failure only log. -/
def executeAgentIteration (env : Env) (a : String) (s : SchedState) : SchedState :=
  match lookupLoop s a with
  | none => s
  | some e =>
    if e.isRunning then
      match env.db a with
      | none =>
        { s with logs := s.logs ++ [LogEvent.errorIteration a ("Agent " ++ a ++ " not found")] }
      | some _ =>
        match env.iter with
        | IterOutcome.success postOk =>
          let s1 := if postOk then s
            else { s with logs := s.logs ++ [LogEvent.errorIteration a "postProcess"] }
          if isAgentLoopRunning s1 a then
            { s1 with rm := handleEndOfLoop (currentSnapshot s1.streams) s1.rm }
          else s1
        | IterOutcome.unauthorized =>
          let s1 := { s with logs := s.logs ++ [LogEvent.warnQuota a] }
          let s2 := stopAgentLoop a s1
          { s2 with events := s2.events ++ [SchedEvent.quotaExceeded a] }
        | IterOutcome.otherFailure msg =>
          { s with logs := s.logs ++ [LogEvent.errorIteration a msg] }
    else s

/-- The Safari screen-sharing error marker checked by `startAgentLoop`'s
catch block. -/
def gestureSubstr : String := "getDisplayMedia must be called from a user gesture handler"

/-- The actionable message the marker is rewritten into. -/
def safariMessage : String :=
  "Safari is bad at screen sharing and can't start automatically, click on the Observer App Icon on the top left to enter the Sensor Permissions Menu and ask for screen sharing manually. Also note: Safari won't capture System Audio, use chrome, firefox or edge for the best experience."

/-- `startAgentLoop`'s catch block: rewrite the user-gesture capture error,
log, release any streams requested for this agent, dispatch a stopped
notification, and rethrow. -/
def startCatch (a : String) (msg : String) (s : SchedState) :
    Except String Unit × SchedState :=
  let displayMsg := if strIncludes msg gestureSubstr then safariMessage else msg
  (Except.error displayMsg,
   { s with
      logs := s.logs ++ [LogEvent.errorStartFailed a displayMsg]
      streams := releaseStreamsForAgent a s.streams
      events := s.events ++ [SchedEvent.statusChanged a false] })

/-- The stream-request step of `startAgentLoop`'s success path: request the
required streams when the set is non-empty. -/
def requestPhase (a : String) (required : List PseudoStreamType) (s : SchedState) :
    SchedState :=
  if required.isEmpty then s
  else { s with streams := requestStreams a required s.streams }

/-- The recording-initialization step of `startAgentLoop`: initialize the
recording manager when this start call is for the first running agent. -/
def initPhase (isFirstAgent : Bool) (s : SchedState) : SchedState :=
  if isFirstAgent then
    { s with rm := initializeRecording (currentSnapshot s.streams) s.rm }
  else s

/-- `window.setInterval(...)` assignment at the end of `startAgentLoop`:
store a fresh timer handle on the agent's current entry. -/
def armTimer (a : String) (s : SchedState) : SchedState :=
  match lookupLoop s a with
  | some e =>
    { s with
      activeLoops := setLoop a { e with intervalId := some s.nextTimerId } s.activeLoops
      nextTimerId := s.nextTimerId + 1 }
  | none => s

/-- `startAgentLoop(agentId, getToken?)`: no-op warning when already
running; otherwise fetch the agent (unknown agent throws), request the
required streams in one atomic call (refusal throws), initialize the
recording manager when this is the first running agent, register the
LoopEntry, dispatch a running notification, run one iteration immediately,
then arm the periodic timer on the current entry. Any throw lands in
`startCatch`. -/
def startAgentLoop (env : Env) (a : String) (hasToken : Bool) (s : SchedState) :
    Except String Unit × SchedState :=
  if isAgentLoopRunning s a then
    (Except.ok (), { s with logs := s.logs ++ [LogEvent.warnAlreadyRunning a] })
  else
    let isFirstAgent := decide (getRunningAgentIds s = [])
    match env.db a with
    | none => startCatch a ("Agent " ++ a ++ " not found") s
    | some agent =>
      let required := requiredStreamsOf agent.system_prompt
      if required.isEmpty = false && env.grantStreams = false then
        startCatch a env.streamErrMsg s
      else
        let s2 := initPhase isFirstAgent (requestPhase a required s)
        let entry : LoopEntry := ⟨none, true, s2.serverHost, s2.serverPort, hasToken⟩
        let s3 := { s2 with
          activeLoops := setLoop a entry s2.activeLoops
          events := s2.events ++ [SchedEvent.statusChanged a true] }
        (Except.ok (), armTimer a (executeAgentIteration env a s3))

/-! ### Timer-tick model for the overlap question

The interval callback armed by `startAgentLoop` is

  `if (activeLoops[agentId]?.isRunning) { await executeAgentIteration(...) }`

and `executeAgentIteration` itself begins with the same `isRunning` check.
Neither check distinguishes an agent whose previous iteration is still
awaiting I/O from an idle one: `isRunning` stays `true` for the whole
lifetime of the loop. `TickState` projects one agent's scheduler state to
that flag plus ghost instrumentation `inFlight`, the number of iterations
begun but not yet completed. -/

structure TickState where
  isRunning : Bool
  inFlight : Nat
deriving DecidableEq, Repr

/-- A timer tick: the callback's guard consults only `isRunning`; when it
passes, a new iteration begins (and runs concurrently with any iteration
still in flight). When it fails, the tick is dropped (the skip is logged by
`executeAgentIteration`'s own guard). -/
def intervalTick (t : TickState) : TickState :=
  if t.isRunning then { t with inFlight := t.inFlight + 1 } else t

/-- An in-flight iteration completes. -/
def iterationFinish (t : TickState) : TickState :=
  { t with inFlight := t.inFlight - 1 }

/-! ## Recording manager lemmas -/

theorem startNewBuffer_pendingMarkers (s : StreamsSnapshot) (rm : RMState) :
    (startNewBuffer s rm).pendingMarkers = rm.pendingMarkers := by
  unfold startNewBuffer discardAndShutdown discardCurrentBuffer
  cases s.screenVideoStream <;> cases s.cameraStream <;>
    split <;> simp

theorem startNewBuffer_state (s : StreamsSnapshot) (rm : RMState) :
    (startNewBuffer s rm).state =
      if s.screenVideoStream || s.cameraStream then RecordingState.BUFFERING
      else RecordingState.IDLE := by
  unfold startNewBuffer
  cases s.screenVideoStream <;> cases s.cameraStream <;> split <;> simp

theorem startNewBuffer_chunks_nil (s : StreamsSnapshot) (rm : RMState)
    (h1 : rm.screenChunks = []) (h2 : rm.cameraChunks = []) :
    (startNewBuffer s rm).screenChunks = [] ∧ (startNewBuffer s rm).cameraChunks = [] := by
  unfold startNewBuffer discardAndShutdown discardCurrentBuffer
  cases s.screenVideoStream <;> cases s.cameraStream <;>
    split <;> simp [h1, h2]

theorem startNewBuffer_rminv (s : StreamsSnapshot) (rm : RMState) :
    RMInv (startNewBuffer s rm) := by
  intro hne
  rw [startNewBuffer_state] at hne
  have hor : (s.screenVideoStream || s.cameraStream) = true := by
    by_contra hno
    simp [hno] at hne
  unfold startNewBuffer
  rcases Bool.or_eq_true_iff.mp hor with hs | hc
  · cases hcam : s.cameraStream <;>
      simp [hs, hcam, hasActiveRecorder, Recorder.isActive]
  · cases hscr : s.screenVideoStream <;>
      simp [hscr, hc, hasActiveRecorder, Recorder.isActive]

theorem finalizeSource_markers (m : List ClipMarker) (t : RecordableStreamType)
    (rec : Option Recorder) (chunks : List Nat) :
    ∀ c ∈ finalizeSource m t rec chunks, c.markers = m := by
  intro c hc
  rcases rec with _ | r
  · simp [finalizeSource] at hc
  · simp only [finalizeSource] at hc
    split at hc
    · simp at hc
    · simp at hc
      subst hc
      rfl

theorem saveAndFinishClip_clip_markers (rm : RMState) :
    ∀ c ∈ (saveAndFinishClip rm).2, c.markers = rm.pendingMarkers := by
  intro c hc
  unfold saveAndFinishClip at hc
  split at hc
  · simp at hc
  · simp only [List.mem_append] at hc
    rcases hc with hc | hc
    · exact finalizeSource_markers _ _ _ _ c hc
    · exact finalizeSource_markers _ _ _ _ c hc

theorem saveAndFinishClip_clears (rm : RMState) (h : recordersSize rm ≠ 0) :
    (saveAndFinishClip rm).1.pendingMarkers = [] := by
  unfold saveAndFinishClip
  simp only [h, if_false]
  split <;> simp_all

theorem saveAndFinishClip_pm_empty (rm : RMState) (h : rm.pendingMarkers = []) :
    (saveAndFinishClip rm).1.pendingMarkers = [] := by
  unfold saveAndFinishClip
  split <;> simp [h]

theorem finalizeSource_ne_nil_of_active (m : List ClipMarker) (t : RecordableStreamType)
    (r : Recorder) (chunks : List Nat) (h : r.isActive = true) :
    finalizeSource m t (some r) chunks ≠ [] := by
  have hr : r.rstate = RecState.active := by
    unfold Recorder.isActive at h
    cases hx : r.rstate <;> simp [hx] at h ⊢
  simp [finalizeSource, hr]

theorem saveAndFinishClip_ne_nil (rm : RMState) (h : hasActiveRecorder rm = true) :
    (saveAndFinishClip rm).2 ≠ [] := by
  have hsize : ¬ recordersSize rm = 0 := by
    unfold hasActiveRecorder at h
    unfold recordersSize
    rcases hsr : rm.screenRec with _ | r <;> rcases hcr : rm.cameraRec with _ | r2 <;>
      simp [hsr, hcr] at h ⊢
  unfold saveAndFinishClip
  simp only [hsize, if_false]
  intro hnil
  have hnil2 := List.append_eq_nil.mp hnil
  unfold hasActiveRecorder at h
  rcases Bool.or_eq_true_iff.mp h with hs | hc
  · rcases hsr : rm.screenRec with _ | r
    · rw [hsr] at hs; simp at hs
    · rw [hsr] at hs
      simp only [Option.any_some] at hs
      have := finalizeSource_ne_nil_of_active rm.pendingMarkers
        RecordableStreamType.screen r rm.screenChunks hs
      rw [hsr] at hnil2
      exact this hnil2.1
  · rcases hcr : rm.cameraRec with _ | r2
    · rw [hcr] at hc; simp at hc
    · rw [hcr] at hc
      simp only [Option.any_some] at hc
      have := finalizeSource_ne_nil_of_active rm.pendingMarkers
        RecordableStreamType.camera r2 rm.cameraChunks hc
      rw [hcr] at hnil2
      exact this hnil2.2

theorem stepRM_no_mark (rm : RMState) (e : RMEvent)
    (hm : e.isMark = false) (h : rm.pendingMarkers = []) :
    (stepRM rm e).1.pendingMarkers = [] ∧ ∀ c ∈ (stepRM rm e).2, c.markers = [] := by
  cases e with
  | init s =>
    refine ⟨?_, by simp [stepRM]⟩
    simp only [stepRM]
    unfold initializeRecording
    split
    · rw [startNewBuffer_pendingMarkers]; exact h
    · exact h
  | endOfLoop s =>
    refine ⟨?_, by simp [stepRM]⟩
    simp only [stepRM]
    unfold handleEndOfLoop
    split
    · rw [startNewBuffer_pendingMarkers]
      simp [discardCurrentBuffer, h]
    · exact h
  | clipStart =>
    refine ⟨?_, by simp [stepRM]⟩
    simp only [stepRM]
    unfold startClip
    split <;> simp [h]
  | clipStop s =>
    constructor
    · simp only [stepRM]
      unfold stopClip
      split
      · rw [startNewBuffer_pendingMarkers]
        exact saveAndFinishClip_pm_empty rm h
      · exact h
    · intro c hc
      simp only [stepRM] at hc
      unfold stopClip at hc
      split at hc
      · have := saveAndFinishClip_clip_markers rm c (by simpa using hc)
        rw [this, h]
      · simp at hc
  | stopAll =>
    constructor
    · simp only [stepRM]
      unfold forceStop
      split
      · simp [discardAndShutdown, discardCurrentBuffer, h]
      · exact saveAndFinishClip_pm_empty rm h
    · intro c hc
      simp only [stepRM] at hc
      unfold forceStop at hc
      split at hc
      · simp at hc
      · have := saveAndFinishClip_clip_markers rm c (by simpa using hc)
        rw [this, h]
  | dataAvail t b =>
    refine ⟨?_, by simp [stepRM]⟩
    simp only [stepRM]
    cases t <;> simp only [dataAvailable] <;> split <;> simp [h]
  | mark l n => simp [RMEvent.isMark] at hm

theorem runRM_no_mark (es : List RMEvent) :
    ∀ rm : RMState, (∀ e ∈ es, e.isMark = false) → rm.pendingMarkers = [] →
    (runRM rm es).1.pendingMarkers = [] ∧ ∀ c ∈ (runRM rm es).2, c.markers = [] := by
  induction es with
  | nil => intro rm _ h; exact ⟨h, by simp [runRM]⟩
  | cons e es ih =>
    intro rm hm h
    have hstep := stepRM_no_mark rm e (hm e (by simp)) h
    have hrest := ih (stepRM rm e).1 (fun e' he' => hm e' (by simp [he'])) hstep.1
    constructor
    · simpa [runRM] using hrest.1
    · intro c hc
      simp only [runRM, List.mem_append] at hc
      rcases hc with hc | hc
      · exact hstep.2 c hc
      · exact hrest.2 c hc

theorem runRM_endOfLoop_clips (ss : List StreamsSnapshot) :
    ∀ rm : RMState, (runRM rm (ss.map RMEvent.endOfLoop)).2 = [] := by
  induction ss with
  | nil => intro rm; rfl
  | cons s ss ih => intro rm; simp [runRM, stepRM, ih]

/-- Every recording-manager event preserves the machine invariant that a
non-IDLE controller holds an active recorder. -/
theorem stepRM_preserves_rminv (rm : RMState) (e : RMEvent) (h : RMInv rm) :
    RMInv (stepRM rm e).1 := by
  cases e with
  | init s =>
    simp only [stepRM]
    unfold initializeRecording
    split
    · exact startNewBuffer_rminv s rm
    · exact h
  | endOfLoop s =>
    simp only [stepRM]
    unfold handleEndOfLoop
    split
    · exact startNewBuffer_rminv s _
    · exact h
  | clipStart =>
    simp only [stepRM]
    unfold startClip
    split
    · intro _
      have hb : rm.state ≠ RecordingState.IDLE := by
        intro hc
        simp_all
      simpa [hasActiveRecorder] using h hb
    · exact h
  | clipStop s =>
    simp only [stepRM]
    unfold stopClip
    split
    · exact startNewBuffer_rminv s _
    · exact h
  | stopAll =>
    simp only [stepRM]
    unfold forceStop
    split
    · intro hne
      simp at hne
    · intro hne
      simp at hne
  | dataAvail t b =>
    simp only [stepRM]
    cases t <;> simp only [dataAvailable] <;> split <;>
      · intro hne
        simpa [hasActiveRecorder] using h (by simpa using hne)
  | mark l n =>
    simp only [stepRM]
    intro hne
    simpa [hasActiveRecorder] using h (by simpa [addMarker] using hne)

/-! ## Claim theorems: recording controller -/

/-- C5: after `initialize()`, any number of `handleEndOfLoop()` calls with no
intervening `startClip()` saves zero clips; each end-of-loop in BUFFERING
state discards the current buffer's chunks without persisting them and
immediately starts a new buffer (BUFFERING again whenever a recordable
stream is still present). -/
theorem no_clip_without_startClip (s0 : StreamsSnapshot) (ss : List StreamsSnapshot)
    (rm : RMState) (s : StreamsSnapshot) (hb : rm.state = RecordingState.BUFFERING) :
    (runRM (initializeRecording s0 RMState.initial) (ss.map RMEvent.endOfLoop)).2 = [] ∧
    (handleEndOfLoop s rm).screenChunks = [] ∧
    (handleEndOfLoop s rm).cameraChunks = [] ∧
    ((s.screenVideoStream || s.cameraStream) = true →
      (handleEndOfLoop s rm).state = RecordingState.BUFFERING) := by
  have hchunks := startNewBuffer_chunks_nil s (discardCurrentBuffer rm)
    (by simp [discardCurrentBuffer]) (by simp [discardCurrentBuffer])
  refine ⟨runRM_endOfLoop_clips ss _, ?_, ?_, ?_⟩
  · simpa [handleEndOfLoop, hb] using hchunks.1
  · simpa [handleEndOfLoop, hb] using hchunks.2
  · intro hor
    simp only [handleEndOfLoop, hb, if_pos]
    rw [startNewBuffer_state, hor]
    rfl

theorem no_clip_without_startClip_witness :
    (runRM (initializeRecording ⟨true, false, false, false⟩ RMState.initial)
        ([⟨true, false, false, false⟩, ⟨true, false, false, false⟩,
          ⟨true, false, false, false⟩].map RMEvent.endOfLoop)).2 = [] ∧
    (handleEndOfLoop ⟨true, false, false, false⟩
        (initializeRecording ⟨true, false, false, false⟩ RMState.initial)).screenChunks = [] ∧
    (handleEndOfLoop ⟨true, false, false, false⟩
        (initializeRecording ⟨true, false, false, false⟩ RMState.initial)).cameraChunks = [] ∧
    (((⟨true, false, false, false⟩ : StreamsSnapshot).screenVideoStream ||
        (⟨true, false, false, false⟩ : StreamsSnapshot).cameraStream) = true →
      (handleEndOfLoop ⟨true, false, false, false⟩
        (initializeRecording ⟨true, false, false, false⟩ RMState.initial)).state =
        RecordingState.BUFFERING) :=
  no_clip_without_startClip ⟨true, false, false, false⟩
    [⟨true, false, false, false⟩, ⟨true, false, false, false⟩, ⟨true, false, false, false⟩]
    (initializeRecording ⟨true, false, false, false⟩ RMState.initial)
    ⟨true, false, false, false⟩ (by decide)

/-- C6: `forceStop()` in RECORDING state saves at least one clip and in
BUFFERING state saves nothing; in every case the state afterwards is IDLE.
The hypothesis is the machine invariant (a non-IDLE controller holds an
active recorder), which every operation preserves. -/
theorem forceStop_saves_iff_recording (rm : RMState) (hInv : RMInv rm) :
    (forceStop rm).1.state = RecordingState.IDLE ∧
    (rm.state = RecordingState.RECORDING → (forceStop rm).2 ≠ []) ∧
    (rm.state = RecordingState.BUFFERING → (forceStop rm).2 = []) := by
  refine ⟨?_, ?_, ?_⟩
  · unfold forceStop
    split <;> simp
  · intro hr
    have hact := hInv (by simp [hr])
    unfold forceStop
    have hnb : ¬ rm.state = RecordingState.BUFFERING := by simp [hr]
    simp only [hnb, if_false]
    exact saveAndFinishClip_ne_nil rm hact
  · intro hb
    unfold forceStop
    simp [hb]

/-- A concrete RECORDING-state controller used by the C6 witness. -/
def rmRecordingSample : RMState :=
  ⟨RecordingState.RECORDING, some ⟨RecState.active, [7]⟩, none, [3], [], []⟩

/-- A concrete BUFFERING-state controller used by the C6 witness. -/
def rmBufferingSample : RMState :=
  ⟨RecordingState.BUFFERING, some ⟨RecState.active, [7]⟩, none, [3], [], []⟩

theorem forceStop_saves_iff_recording_witness :
    (RMInv rmRecordingSample ∧ RMInv rmBufferingSample) ∧
    (forceStop rmRecordingSample).2 ≠ [] ∧
    (forceStop rmRecordingSample).1.state = RecordingState.IDLE ∧
    (forceStop rmBufferingSample).2 = [] ∧
    (forceStop rmBufferingSample).1.state = RecordingState.IDLE :=
  ⟨⟨fun _ => rfl, fun _ => rfl⟩,
   (forceStop_saves_iff_recording rmRecordingSample (fun _ => rfl)).2.1 rfl,
   (forceStop_saves_iff_recording rmRecordingSample (fun _ => rfl)).1,
   (forceStop_saves_iff_recording rmBufferingSample (fun _ => rfl)).2.2 rfl,
   (forceStop_saves_iff_recording rmBufferingSample (fun _ => rfl)).1⟩

/-- C7: `addMarker` stores the marker in every state (warning exactly when
IDLE); a finalization with live recorders attaches the pending markers to
every clip it saves and clears the pending list; afterwards, as long as no
new marker is added, every later clip carries an empty marker list. -/
theorem markers_attach_once (rm : RMState) (l : String) (n : Nat)
    (rm2 : RMState) (es : List RMEvent) :
    ((addMarker l n rm).1.pendingMarkers = rm.pendingMarkers ++ [⟨l, n⟩]) ∧
    ((addMarker l n rm).2 = true ↔ rm.state = RecordingState.IDLE) ∧
    (recordersSize rm ≠ 0 →
      (∀ c ∈ (saveAndFinishClip rm).2, c.markers = rm.pendingMarkers) ∧
      (saveAndFinishClip rm).1.pendingMarkers = []) ∧
    (rm2.pendingMarkers = [] → (∀ e ∈ es, e.isMark = false) →
      (runRM rm2 es).1.pendingMarkers = [] ∧ ∀ c ∈ (runRM rm2 es).2, c.markers = []) := by
  refine ⟨rfl, by simp [addMarker], ?_, ?_⟩
  · intro hsz
    exact ⟨saveAndFinishClip_clip_markers rm, saveAndFinishClip_clears rm hsz⟩
  · intro h1 h2
    exact runRM_no_mark es rm2 h2 h1

theorem markers_attach_once_witness :
    ((addMarker "m" 5 ⟨RecordingState.IDLE, some ⟨RecState.active, [7]⟩, none, [3], [],
        [⟨"m0", 1⟩]⟩).1.pendingMarkers =
      (⟨RecordingState.IDLE, some ⟨RecState.active, [7]⟩, none, [3], [],
        [⟨"m0", 1⟩]⟩ : RMState).pendingMarkers ++ [⟨"m", 5⟩]) ∧
    ((addMarker "m" 5 ⟨RecordingState.IDLE, some ⟨RecState.active, [7]⟩, none, [3], [],
        [⟨"m0", 1⟩]⟩).2 = true ↔
      (⟨RecordingState.IDLE, some ⟨RecState.active, [7]⟩, none, [3], [],
        [⟨"m0", 1⟩]⟩ : RMState).state = RecordingState.IDLE) ∧
    ((∀ c ∈ (saveAndFinishClip ⟨RecordingState.IDLE, some ⟨RecState.active, [7]⟩, none, [3], [],
        [⟨"m0", 1⟩]⟩).2, c.markers =
        (⟨RecordingState.IDLE, some ⟨RecState.active, [7]⟩, none, [3], [],
          [⟨"m0", 1⟩]⟩ : RMState).pendingMarkers) ∧
      (saveAndFinishClip ⟨RecordingState.IDLE, some ⟨RecState.active, [7]⟩, none, [3], [],
        [⟨"m0", 1⟩]⟩).1.pendingMarkers = []) ∧
    ((runRM ⟨RecordingState.BUFFERING, some ⟨RecState.active, []⟩, none, [], [], []⟩
        [RMEvent.clipStart, RMEvent.clipStop ⟨true, false, false, false⟩]).1.pendingMarkers = [] ∧
      ∀ c ∈ (runRM ⟨RecordingState.BUFFERING, some ⟨RecState.active, []⟩, none, [], [], []⟩
        [RMEvent.clipStart, RMEvent.clipStop ⟨true, false, false, false⟩]).2, c.markers = []) := by
  have h := markers_attach_once
    ⟨RecordingState.IDLE, some ⟨RecState.active, [7]⟩, none, [3], [], [⟨"m0", 1⟩]⟩ "m" 5
    ⟨RecordingState.BUFFERING, some ⟨RecState.active, []⟩, none, [], [], []⟩
    [RMEvent.clipStart, RMEvent.clipStop ⟨true, false, false, false⟩]
  exact ⟨h.1, h.2.1, h.2.2.1 (by decide), h.2.2.2 rfl (by decide)⟩

/-- C10: when the stream manager reports neither a screen video stream nor a
camera stream, `initialize()` (via `startNewBuffer`) creates no recorder and
leaves the controller IDLE, and a subsequent `startClip()` is a warning
no-op that does not change the state. -/
theorem no_streams_idle_no_recorder (s : StreamsSnapshot) (rm : RMState)
    (h1 : s.screenVideoStream = false) (h2 : s.cameraStream = false)
    (h3 : rm.state = RecordingState.IDLE) (h4 : rm.screenRec = none)
    (h5 : rm.cameraRec = none) :
    initializeRecording s rm = rm ∧
    (startClip rm).1 = rm ∧ (startClip rm).2 = true := by
  rcases rm with ⟨st, sr, cr, sc, cc, pm⟩
  simp only at h3 h4 h5
  subst h3; subst h4; subst h5
  refine ⟨?_, ?_, ?_⟩
  · simp [initializeRecording, startNewBuffer, recordersSize, h1, h2]
  · simp [startClip]
  · simp [startClip]

theorem no_streams_idle_no_recorder_witness :
    initializeRecording ⟨false, false, true, true⟩ RMState.initial = RMState.initial ∧
    (startClip RMState.initial).1 = RMState.initial ∧
    (startClip RMState.initial).2 = true :=
  no_streams_idle_no_recorder ⟨false, false, true, true⟩ RMState.initial
    rfl rfl rfl rfl rfl

/-! ## Prompt assembler lemmas -/

theorem scanKindAux_images (h : Nat → String → ProcResult) (p : PPattern) (s : List Char) :
    ∀ (fuel cur n : Nat), (scanKindAux h p s fuel cur n).2 =
      ((scanKindTraceAux h p s fuel cur n).map Prod.snd).flatten := by
  intro fuel
  induction fuel with
  | zero => intro cur n; rfl
  | succ fuel ih =>
    intro cur n
    simp only [scanKindAux, scanKindTraceAux]
    rcases hf : findFrom p (s.drop cur) cur with _ | ⟨idx, len, cap⟩
    · rfl
    · simp [ih]

theorem findFrom_ge (p : PPattern) : ∀ (rem : List Char) (idx i len : Nat) (cap : String),
    findFrom p rem idx = some (i, len, cap) → idx ≤ i := by
  intro rem
  induction rem with
  | nil => intro idx i len cap h; simp [findFrom] at h
  | cons c cs ih =>
    intro idx i len cap h
    simp only [findFrom] at h
    rcases hm : matchAt p (c :: cs) with _ | r
    · rw [hm] at h
      have := ih (idx + 1) i len cap h
      omega
    · rw [hm] at h
      simp only [Option.some.injEq, Prod.mk.injEq] at h
      omega

theorem matchAt_pos (k : PKind) : ∀ (s : List Char) (len : Nat) (cap : String),
    matchAt (patternOf k) s = some (len, cap) → 0 < len := by
  intro s len cap h
  cases k <;> simp only [patternOf, matchAt] at h
  case MEMORY =>
    split at h
    · split at h
      · simp at h
      · simp only [Option.some.injEq, Prod.mk.injEq] at h
        omega
    · simp at h
  all_goals
    split at h
    case isTrue =>
      simp only [Option.some.injEq, Prod.mk.injEq] at h
      rw [← h.1]
      decide
    case isFalse => simp at h

theorem findFrom_pos (k : PKind) : ∀ (rem : List Char) (idx i len : Nat) (cap : String),
    findFrom (patternOf k) rem idx = some (i, len, cap) → 0 < len := by
  intro rem
  induction rem with
  | nil => intro idx i len cap h; simp [findFrom] at h
  | cons c cs ih =>
    intro idx i len cap h
    simp only [findFrom] at h
    rcases hm : matchAt (patternOf k) (c :: cs) with _ | r
    · rw [hm] at h
      exact ih (idx + 1) i len cap h
    · rw [hm] at h
      simp only [Option.some.injEq, Prod.mk.injEq] at h
      have := matchAt_pos k (c :: cs) r.1 r.2 (by rw [hm])
      omega

theorem scanKindTraceAux_ge (k : PKind) (h : Nat → String → ProcResult) (s : List Char) :
    ∀ (fuel cur n : Nat), ∀ x ∈ scanKindTraceAux h (patternOf k) s fuel cur n, cur ≤ x.1 := by
  intro fuel
  induction fuel with
  | zero => intro cur n x hx; simp [scanKindTraceAux] at hx
  | succ fuel ih =>
    intro cur n x hx
    simp only [scanKindTraceAux] at hx
    rcases hf : findFrom (patternOf k) (s.drop cur) cur with _ | ⟨idx, len, cap⟩
    · rw [hf] at hx; simp at hx
    · rw [hf] at hx
      simp only [List.mem_cons] at hx
      have hge := findFrom_ge (patternOf k) (s.drop cur) cur idx len cap hf
      rcases hx with hx | hx
      · subst hx; exact hge
      · have := ih (idx + len) (n + 1) x hx
        omega

theorem scanKindTraceAux_pairwise (k : PKind) (h : Nat → String → ProcResult) (s : List Char) :
    ∀ (fuel cur n : Nat),
      ((scanKindTraceAux h (patternOf k) s fuel cur n).map Prod.fst).Pairwise (· < ·) := by
  intro fuel
  induction fuel with
  | zero => intro cur n; simp [scanKindTraceAux]
  | succ fuel ih =>
    intro cur n
    simp only [scanKindTraceAux]
    rcases hf : findFrom (patternOf k) (s.drop cur) cur with _ | ⟨idx, len, cap⟩
    · simp
    · simp only [List.map_cons, List.pairwise_cons]
      constructor
      · intro b hb
        obtain ⟨x, hx, hxb⟩ := List.mem_map.mp hb
        have h1 := scanKindTraceAux_ge k h s fuel (idx + len) (n + 1) x hx
        have h2 := findFrom_pos k (s.drop cur) cur idx len cap hf
        omega
      · exact ih (idx + len) (n + 1)

theorem preProcess_foldl (h : HandlerEnv) :
    ∀ (ks : List PKind) (p : List Char) (imgs : List String),
    (ks.foldl (fun acc k =>
        let r := scanKind (h k) (patternOf k) acc.modifiedPrompt
        (⟨r.1, acc.images ++ r.2⟩ : PreProcessorResult)) ⟨p, imgs⟩).images
      = imgs ++ ((kindPassesAux h ks p).map Prod.snd).flatten := by
  intro ks
  induction ks with
  | nil => intro p imgs; simp [kindPassesAux]
  | cons k ks ih =>
    intro p imgs
    simp only [List.foldl_cons, kindPassesAux, List.map_cons, List.flatten]
    rw [ih]
    simp [List.append_assoc]

/-! ## Claim theorems: prompt assembler -/

/-- Handler environment for the C1 counterexample: both image-producing
handlers succeed, mirroring the source's success paths (`replacementText`
is the empty string, one image each). -/
def handlersRegistryOrder : HandlerEnv := fun k _ _ =>
  match k with
  | PKind.SCREEN_64 => ⟨some "", ["IMG_SCREEN"]⟩
  | PKind.CAMERA => ⟨some "", ["IMG_CAMERA"]⟩
  | _ => ⟨some "", []⟩

/-- C1 counterexample: in the template `$CAMERA $SCREEN_64` the camera
placeholder is encountered first in the source text (index 0 before index
8), so ordering primarily by encounter position would put the camera image
first; `preProcess` instead emits the SCREEN_64 image first, because the
outer loop runs over the kind registry. -/
theorem preProcess_text_order_counterexample :
    (preProcess handlersRegistryOrder "$CAMERA $SCREEN_64".data).images
      = ["IMG_SCREEN", "IMG_CAMERA"] ∧
    (preProcess handlersRegistryOrder "$CAMERA $SCREEN_64".data).images
      ≠ ["IMG_CAMERA", "IMG_SCREEN"] := by
  constructor
  · decide
  · decide

/-- C1 amended: the image list is the concatenation, in kind-registry
order, of each kind's image contributions; within a single kind's pass the
occurrences contribute at strictly increasing text positions (left to
right). -/
theorem preProcess_image_order_registry (h : HandlerEnv) (s : List Char) :
    (preProcess h s).images = ((kindPasses h s).map Prod.snd).flatten ∧
    (∀ (k : PKind) (t : List Char),
      ((scanKindTrace (h k) (patternOf k) t).map Prod.fst).Pairwise (· < ·) ∧
      (scanKind (h k) (patternOf k) t).2 =
        ((scanKindTrace (h k) (patternOf k) t).map Prod.snd).flatten) := by
  constructor
  · unfold preProcess kindPasses
    exact preProcess_foldl h registry s []
  · intro k t
    exact ⟨scanKindTraceAux_pairwise k (h k) t (t.length + 1) 0 0,
           scanKindAux_images (h k) (patternOf k) t (t.length + 1) 0 0⟩

/-- Handler environment for the C8 scenario: the first SCREEN_64 handler
invocation fails (its catch path returns the bracketed diagnostic and no
image), the second succeeds. -/
def handlersFirstFails : HandlerEnv := fun k n _ =>
  match k with
  | PKind.SCREEN_64 =>
    if n = 0 then ⟨some "[Error with screen capture]", []⟩
    else ⟨some "", ["IMG2"]⟩
  | _ => ⟨some "", []⟩

/-- C8: with two occurrences of the same placeholder kind where the first
handler invocation fails and the second succeeds, the assembled string holds
the bracketed diagnostic in place of the first occurrence and the real
(empty-text, image-bearing) content in place of the second, and the image
list holds exactly the second invocation's images. -/
theorem failing_handler_bracketed_diagnostic :
    preProcess handlersFirstFails "$SCREEN_64 and $SCREEN_64".data =
      ⟨"[Error with screen capture] and ".data, ["IMG2"]⟩ := by
  decide

/-! ## Loop scheduler lemmas -/

theorem lookup_setLoop_self (a : String) (e : LoopEntry) :
    ∀ l : List (String × LoopEntry), (setLoop a e l).lookup a = some e := by
  intro l
  induction l with
  | nil => simp [setLoop, List.lookup]
  | cons p rest ih =>
    rcases p with ⟨b, e'⟩
    by_cases hb : b = a
    · have h1 : (b == a) = true := beq_iff_eq.mpr hb
      simp [setLoop, h1, List.lookup]
    · have h1 : (b == a) = false := beq_eq_false_iff_ne.mpr hb
      have h2 : (a == b) = false := beq_eq_false_iff_ne.mpr (fun hc => hb hc.symm)
      simp [setLoop, h1, h2, List.lookup, ih]

theorem lookup_setLoop_ne (a b : String) (e : LoopEntry) (hne : b ≠ a) :
    ∀ l : List (String × LoopEntry), (setLoop a e l).lookup b = l.lookup b := by
  intro l
  have hba : (b == a) = false := beq_eq_false_iff_ne.mpr hne
  induction l with
  | nil => simp [setLoop, List.lookup, hba]
  | cons p rest ih =>
    rcases p with ⟨c, e'⟩
    by_cases hc : c = a
    · have hca : (c == a) = true := beq_iff_eq.mpr hc
      have hbc : (b == c) = false :=
        beq_eq_false_iff_ne.mpr (by rw [hc]; exact hne)
      simp [setLoop, hca, List.lookup, hbc, hba]
    · have hca : (c == a) = false := beq_eq_false_iff_ne.mpr hc
      by_cases hbc : b = c
      · have h1 : (b == c) = true := beq_iff_eq.mpr hbc
        simp [setLoop, hca, List.lookup, h1]
      · have h1 : (b == c) = false := beq_eq_false_iff_ne.mpr hbc
        simp [setLoop, hca, List.lookup, h1, ih]

theorem countLoop_setLoop (a b : String) (e : LoopEntry) :
    ∀ l : List (String × LoopEntry),
      countLoop a (setLoop b e l) =
        if b = a then max (countLoop a l) 1 else countLoop a l := by
  intro l
  simp only [countLoop]
  induction l with
  | nil =>
    by_cases hba : b = a
    · have h1 : (b == a) = true := beq_iff_eq.mpr hba
      simp [setLoop, hba, h1]
    · have h1 : (b == a) = false := beq_eq_false_iff_ne.mpr hba
      simp [setLoop, hba, h1]
  | cons p rest ih =>
    rcases p with ⟨c, e'⟩
    by_cases hcb : c = b
    · have h1 : (c == b) = true := beq_iff_eq.mpr hcb
      by_cases hba : b = a
      · have h2 : (b == a) = true := beq_iff_eq.mpr hba
        have h3 : (c == a) = true := beq_iff_eq.mpr (hcb.trans hba)
        simp [setLoop, List.countP_cons, h1, h2, h3, hba]
        try omega
      · have h2 : (b == a) = false := beq_eq_false_iff_ne.mpr hba
        have h3 : (c == a) = false :=
          beq_eq_false_iff_ne.mpr (by rw [hcb]; exact hba)
        simp [setLoop, List.countP_cons, h1, h2, h3, hba]
    · have h1 : (c == b) = false := beq_eq_false_iff_ne.mpr hcb
      by_cases hca : c = a
      · have h2 : (c == a) = true := beq_iff_eq.mpr hca
        have hba : ¬ b = a := fun hc => hcb (hca.trans hc.symm)
        simp [setLoop, List.countP_cons, h1, h2, hba, ih]
      · have h2 : (c == a) = false := beq_eq_false_iff_ne.mpr hca
        by_cases hba : b = a
        · subst hba
          simp [setLoop, List.countP_cons, h1, h2, ih]
          try omega
        · simp [setLoop, List.countP_cons, h1, h2, hba, ih]

theorem countLoop_lookup_some (a : String) :
    ∀ (l : List (String × LoopEntry)) (e : LoopEntry),
      l.lookup a = some e → 1 ≤ countLoop a l := by
  intro l
  induction l with
  | nil => intro e h; simp [List.lookup] at h
  | cons p rest ih =>
    intro e h
    rcases p with ⟨b, e'⟩
    by_cases hb : b = a
    · have h1 : (b == a) = true := beq_iff_eq.mpr hb
      simp [countLoop, List.countP_cons, h1]
    · have h1 : (b == a) = false := beq_eq_false_iff_ne.mpr hb
      have h2 : (a == b) = false := beq_eq_false_iff_ne.mpr (fun hc => hb hc.symm)
      simp only [List.lookup, h2] at h
      have := ih e h
      simp only [countLoop, List.countP_cons, h1] at *
      omega

theorem stopAgentLoop_lookup_ne (a b : String) (s : SchedState) (hne : b ≠ a) :
    lookupLoop (stopAgentLoop a s) b = lookupLoop s b := by
  unfold stopAgentLoop
  rcases hl : lookupLoop s a with _ | e
  · rfl
  · by_cases hr : e.isRunning = true
    · simp only [hr, if_true]
      simp only [lookupLoop]
      split <;> exact lookup_setLoop_ne a b _ hne _
    · simp only [hr, if_false]
      rfl

theorem stopAgentLoop_lookup_self (a : String) (s : SchedState) (e : LoopEntry)
    (hl : lookupLoop s a = some e) (hr : e.isRunning = true) :
    lookupLoop (stopAgentLoop a s) a =
      some { e with isRunning := false, intervalId := none } := by
  unfold stopAgentLoop
  rw [hl]
  simp only [hr, if_true]
  simp only [lookupLoop]
  split <;> exact lookup_setLoop_self a _ _

theorem stopAgentLoop_notRunning (a : String) (s : SchedState) :
    isAgentLoopRunning (stopAgentLoop a s) a = false := by
  rcases hl : lookupLoop s a with _ | e
  · unfold stopAgentLoop
    rw [hl]
    simp only [isAgentLoopRunning, lookupLoop] at hl ⊢
    simp [hl]
  · by_cases hr : e.isRunning = true
    · have := stopAgentLoop_lookup_self a s e hl hr
      simp [isAgentLoopRunning, this]
    · unfold stopAgentLoop
      rw [hl]
      simp only [hr, if_false]
      simp only [isAgentLoopRunning, lookupLoop] at hl ⊢
      simp [hl]
      simpa using hr

theorem countLoop_stopAgentLoop_le (a b : String) (s : SchedState)
    (h : countLoop a s.activeLoops ≤ 1) :
    countLoop a (stopAgentLoop b s).activeLoops ≤ 1 := by
  unfold stopAgentLoop
  rcases hl : lookupLoop s b with _ | e
  · exact h
  · by_cases hr : e.isRunning = true
    · simp only [hr, if_true]
      split <;>
      · simp only [countLoop_setLoop]
        split <;> omega
    · simp only [hr, if_false]
      exact h

theorem countLoop_executeAgentIteration_le (env : Env) (a b : String) (s : SchedState)
    (h : countLoop a s.activeLoops ≤ 1) :
    countLoop a (executeAgentIteration env b s).activeLoops ≤ 1 := by
  unfold executeAgentIteration
  rcases hl : lookupLoop s b with _ | e
  · exact h
  · by_cases hr : e.isRunning = true
    · simp only [hr, if_true]
      rcases hdb : env.db b with _ | ag
      · exact h
      · rcases hit : env.iter with p | _ | msg
        · dsimp only
          split <;> split <;> simpa using h
        · exact countLoop_stopAgentLoop_le a b
            { s with logs := s.logs ++ [LogEvent.warnQuota b] } (by simpa using h)
        · exact h
    · simp only [hr, if_false]
      exact h

theorem requestPhase_activeLoops (a : String) (required : List PseudoStreamType)
    (s : SchedState) : (requestPhase a required s).activeLoops = s.activeLoops := by
  unfold requestPhase
  split <;> rfl

theorem initPhase_activeLoops (b : Bool) (s : SchedState) :
    (initPhase b s).activeLoops = s.activeLoops := by
  unfold initPhase
  split <;> rfl

theorem countLoop_armTimer_le (a b : String) (s : SchedState)
    (h : countLoop a s.activeLoops ≤ 1) :
    countLoop a (armTimer b s).activeLoops ≤ 1 := by
  unfold armTimer
  rcases hl : lookupLoop s b with _ | e
  · exact h
  · simp only [countLoop_setLoop]
    split <;> omega

theorem countLoop_startAgentLoop_le (env : Env) (a : String) (tok : Bool) (s : SchedState)
    (h : countLoop a s.activeLoops ≤ 1) :
    countLoop a (startAgentLoop env a tok s).2.activeLoops ≤ 1 := by
  unfold startAgentLoop
  split
  · simpa using h
  · rcases hdb : env.db a with _ | ag
    · try rw [hdb]
      simpa [startCatch] using h
    · try rw [hdb]
      dsimp only
      split
      · simpa [startCatch] using h
      · apply countLoop_armTimer_le
        apply countLoop_executeAgentIteration_le
        simp only [initPhase_activeLoops, requestPhase_activeLoops, countLoop_setLoop]
        split <;> omega

theorem running_lookup (s : SchedState) (a : String)
    (h : isAgentLoopRunning s a = true) :
    ∃ e, lookupLoop s a = some e ∧ e.isRunning = true := by
  unfold isAgentLoopRunning at h
  rcases hl : lookupLoop s a with _ | e
  · try rw [hl] at h
    simp at h
  · try rw [hl] at h
    exact ⟨e, rfl, h⟩

theorem holdsFor_release (a : String) (sm : StreamMgrState) :
    holdsFor a (releaseStreamsForAgent a sm) = [] := by
  rcases sm with ⟨holds⟩
  unfold holdsFor releaseStreamsForAgent
  induction holds with
  | nil => rfl
  | cons p rest ih =>
    by_cases hp : p.1 = a
    · have h1 : (p.1 == a) = true := beq_iff_eq.mpr hp
      simp only [List.filter_cons, h1, Bool.not_true, if_neg]
      exact ih
    · have h1 : (p.1 == a) = false := beq_eq_false_iff_ne.mpr hp
      simp only [List.filter_cons, h1, Bool.not_false, if_pos]
      simp only [List.filter_cons, h1, Bool.false_eq_true, if_neg]
      exact ih

/-! ## Claim theorems: loop scheduler -/

/-- C2: when the model transport raises the distinguished unauthorized/quota
error inside an iteration, exactly the iterating agent's loop is stopped and
a quota-exceeded notification carrying its id is dispatched, while every
other agent's LoopEntry is untouched; any other iteration failure only logs
the error and leaves the whole `activeLoops` record — including this agent's
armed timer — unchanged. -/
theorem quota_stops_only_offending_agent (env : Env) (s : SchedState) (a : String)
    (ag : CompleteAgent) (hdb : env.db a = some ag)
    (hrun : isAgentLoopRunning s a = true) :
    (env.iter = IterOutcome.unauthorized →
      isAgentLoopRunning (executeAgentIteration env a s) a = false ∧
      SchedEvent.quotaExceeded a ∈ (executeAgentIteration env a s).events ∧
      ∀ b, b ≠ a → lookupLoop (executeAgentIteration env a s) b = lookupLoop s b) ∧
    (∀ msg, env.iter = IterOutcome.otherFailure msg →
      (executeAgentIteration env a s).activeLoops = s.activeLoops ∧
      LogEvent.errorIteration a msg ∈ (executeAgentIteration env a s).logs) := by
  obtain ⟨e, hl, he⟩ := running_lookup s a hrun
  constructor
  · intro hit
    have hred : executeAgentIteration env a s =
        { stopAgentLoop a { s with logs := s.logs ++ [LogEvent.warnQuota a] } with
          events := (stopAgentLoop a
              { s with logs := s.logs ++ [LogEvent.warnQuota a] }).events
            ++ [SchedEvent.quotaExceeded a] } := by
      unfold executeAgentIteration
      rw [hl, hdb, hit]
      simp [he]
    refine ⟨?_, ?_, ?_⟩
    · rw [hred]
      exact stopAgentLoop_notRunning a { s with logs := s.logs ++ [LogEvent.warnQuota a] }
    · rw [hred]
      simp
    · intro b hb
      rw [hred]
      exact stopAgentLoop_lookup_ne a b
        { s with logs := s.logs ++ [LogEvent.warnQuota a] } hb
  · intro msg hit
    constructor
    · unfold executeAgentIteration
      rw [hl, hdb, hit]
      simp [he]
    · unfold executeAgentIteration
      rw [hl, hdb, hit]
      simp [he]

theorem startAgentLoop_when_running (env : Env) (a : String) (tok : Bool) (s : SchedState)
    (h : isAgentLoopRunning s a = true) :
    startAgentLoop env a tok s =
      (Except.ok (), { s with logs := s.logs ++ [LogEvent.warnAlreadyRunning a] }) := by
  unfold startAgentLoop
  simp [h]

/-- C9: starting an agent twice without an intervening stop leaves exactly
one LoopEntry for it; the second call is a warning no-op returning success:
it changes nothing but the log (in particular it does not touch the stream
manager). -/
theorem double_start_single_entry (env env2 : Env) (s : SchedState) (a : String)
    (tok tok2 : Bool) (h0 : countLoop a s.activeLoops ≤ 1)
    (hrun : isAgentLoopRunning (startAgentLoop env a tok s).2 a = true) :
    countLoop a (startAgentLoop env a tok s).2.activeLoops = 1 ∧
    startAgentLoop env2 a tok2 (startAgentLoop env a tok s).2 =
      (Except.ok (), { (startAgentLoop env a tok s).2 with
        logs := (startAgentLoop env a tok s).2.logs ++ [LogEvent.warnAlreadyRunning a] }) ∧
    countLoop a (startAgentLoop env2 a tok2 (startAgentLoop env a tok s).2).2.activeLoops = 1 ∧
    (startAgentLoop env2 a tok2 (startAgentLoop env a tok s).2).2.streams =
      (startAgentLoop env a tok s).2.streams := by
  obtain ⟨e, hl, he⟩ := running_lookup _ a hrun
  have hle := countLoop_startAgentLoop_le env a tok s h0
  have hge := countLoop_lookup_some a _ e hl
  have hone : countLoop a (startAgentLoop env a tok s).2.activeLoops = 1 := by omega
  have hsecond : startAgentLoop env2 a tok2 (startAgentLoop env a tok s).2 =
      (Except.ok (), { (startAgentLoop env a tok s).2 with
        logs := (startAgentLoop env a tok s).2.logs
          ++ [LogEvent.warnAlreadyRunning a] }) :=
    startAgentLoop_when_running env2 a tok2 _ hrun
  refine ⟨hone, hsecond, ?_, ?_⟩
  · rw [hsecond]
    simpa using hone
  · rw [hsecond]

/-- C4: every failure inside `startAgentLoop` leaves no stream held for the
agent, leaves the agent not running, and propagates the error; a stream-
acquisition failure whose message carries the user-gesture marker is
rewritten into the actionable Safari message before being rethrown. -/
theorem start_failure_rollback (env : Env) (s : SchedState) (a : String) (tok : Bool)
    (hrun : isAgentLoopRunning s a = false) :
    (∀ emsg : String, (startAgentLoop env a tok s).1 = Except.error emsg →
      holdsFor a (startAgentLoop env a tok s).2.streams = [] ∧
      isAgentLoopRunning (startAgentLoop env a tok s).2 a = false) ∧
    (∀ ag : CompleteAgent, env.db a = some ag →
      requiredStreamsOf ag.system_prompt ≠ [] →
      env.grantStreams = false →
      strIncludes env.streamErrMsg gestureSubstr = true →
      (startAgentLoop env a tok s).1 = Except.error safariMessage) := by
  constructor
  · intro emsg herr
    unfold startAgentLoop at herr ⊢
    simp only [hrun, Bool.false_eq_true, if_false] at herr ⊢
    rcases hdb : env.db a with _ | ag
    · try rw [hdb] at herr
      try rw [hdb]
      exact ⟨by simp [startCatch, holdsFor_release], hrun⟩
    · try rw [hdb] at herr
      try rw [hdb]
      dsimp only at herr ⊢
      by_cases hcond :
        (decide ((requiredStreamsOf ag.system_prompt).isEmpty = false)
          && decide (env.grantStreams = false)) = true
      · simp only [hcond, if_true] at herr ⊢
        exact ⟨by simp [startCatch, holdsFor_release], hrun⟩
      · simp only [hcond, if_false] at herr
        simp at herr
  · intro ag hdb hreq hgrant hinc
    have hne : (requiredStreamsOf ag.system_prompt).isEmpty = false := by
      rcases hx : requiredStreamsOf ag.system_prompt with _ | ⟨k, ks⟩
      · exact absurd hx hreq
      · rfl
    unfold startAgentLoop
    simp only [hrun, Bool.false_eq_true, if_false]
    rw [hdb]
    dsimp only
    have hcond :
        (decide ((requiredStreamsOf ag.system_prompt).isEmpty = false)
          && decide (env.grantStreams = false)) = true := by
      simp [hne, hgrant]
    simp only [hcond, if_true]
    simp [startCatch, hinc]

/-! ## Claim theorems: timer ticks (overlap question) -/

/-- C3 counterexample: a timer tick that fires while one iteration is still
in flight (`inFlight = 1`, agent running) is not dropped — the guard passes
and a second concurrent iteration begins (`inFlight = 2`), refuting the
claim that the scheduler never starts iteration N+1 while N is in flight. -/
theorem tick_overlap_counterexample :
    intervalTick ⟨true, 1⟩ ≠ ⟨true, 1⟩ ∧ (intervalTick ⟨true, 1⟩).inFlight = 2 := by
  constructor
  · decide
  · rfl

/-- C3 amended: the interval callback's guard consults only the running
flag: a tick firing after the agent stopped is dropped, while a tick firing
on a running agent always begins a new iteration — even when a previous
iteration is still in flight (there is no overlap guard). -/
theorem tick_guard_amended (t : TickState) :
    (t.isRunning = false → intervalTick t = t) ∧
    (t.isRunning = true → (intervalTick t).inFlight = t.inFlight + 1) := by
  constructor <;> intro h <;> simp [intervalTick, h]

theorem tick_guard_amended_witness :
    intervalTick ⟨false, 2⟩ = ⟨false, 2⟩ ∧ (intervalTick ⟨true, 1⟩).inFlight = 1 + 1 :=
  ⟨(tick_guard_amended ⟨false, 2⟩).1 rfl, (tick_guard_amended ⟨true, 1⟩).2 rfl⟩

/-! ## Concrete scheduler scenarios (witness data) -/

/-- A configured agent whose template needs no streams. -/
def agentSample : CompleteAgent := ⟨"hello", "model-a", 1⟩

/-- A configured agent whose template requires the screen stream. -/
def agentScreen : CompleteAgent := ⟨"watch $SCREEN_64 now", "model-a", 1⟩

def envQuota : Env := ⟨fun _ => some agentSample, true, "", IterOutcome.unauthorized⟩

def envOtherFail : Env :=
  ⟨fun _ => some agentSample, true, "", IterOutcome.otherFailure "boom"⟩

def envOk : Env := ⟨fun _ => some agentSample, true, "", IterOutcome.success true⟩

/-- Stream acquisition refused with the Safari user-gesture error. -/
def envDenied : Env :=
  ⟨fun _ => some agentScreen, false,
   "NotAllowedError: getDisplayMedia must be called from a user gesture handler",
   IterOutcome.success true⟩

/-- A scheduler state with one running agent. -/
def schedRunning : SchedState :=
  ⟨[("agent1", ⟨some 0, true, "localhost", "3838", false⟩)], ⟨[]⟩, RMState.initial,
   [], [], [], "localhost", "3838", 1⟩

theorem quota_stops_only_offending_agent_witness :
    isAgentLoopRunning (executeAgentIteration envQuota "agent1" schedRunning) "agent1"
      = false ∧
    SchedEvent.quotaExceeded "agent1"
      ∈ (executeAgentIteration envQuota "agent1" schedRunning).events ∧
    lookupLoop (executeAgentIteration envQuota "agent1" schedRunning) "agent2"
      = lookupLoop schedRunning "agent2" ∧
    (executeAgentIteration envOtherFail "agent1" schedRunning).activeLoops
      = schedRunning.activeLoops ∧
    LogEvent.errorIteration "agent1" "boom"
      ∈ (executeAgentIteration envOtherFail "agent1" schedRunning).logs := by
  have h1 := (quota_stops_only_offending_agent envQuota schedRunning "agent1"
    agentSample rfl (by decide)).1 rfl
  have h2 := (quota_stops_only_offending_agent envOtherFail schedRunning "agent1"
    agentSample rfl (by decide)).2 "boom" rfl
  exact ⟨h1.1, h1.2.1, h1.2.2 "agent2" (by decide), h2.1, h2.2⟩

theorem double_start_single_entry_witness :
    countLoop "agent1" (startAgentLoop envOk "agent1" false SchedState.initial).2.activeLoops
      = 1 ∧
    startAgentLoop envOk "agent1" false
        (startAgentLoop envOk "agent1" false SchedState.initial).2 =
      (Except.ok (), { (startAgentLoop envOk "agent1" false SchedState.initial).2 with
        logs := (startAgentLoop envOk "agent1" false SchedState.initial).2.logs
          ++ [LogEvent.warnAlreadyRunning "agent1"] }) ∧
    countLoop "agent1" (startAgentLoop envOk "agent1" false
        (startAgentLoop envOk "agent1" false SchedState.initial).2).2.activeLoops = 1 ∧
    (startAgentLoop envOk "agent1" false
        (startAgentLoop envOk "agent1" false SchedState.initial).2).2.streams =
      (startAgentLoop envOk "agent1" false SchedState.initial).2.streams :=
  double_start_single_entry envOk envOk SchedState.initial "agent1" false false
    (by decide) (by decide)

theorem start_failure_rollback_witness :
    (startAgentLoop envDenied "agent1" false SchedState.initial).1
      = Except.error safariMessage ∧
    holdsFor "agent1" (startAgentLoop envDenied "agent1" false SchedState.initial).2.streams
      = [] ∧
    isAgentLoopRunning (startAgentLoop envDenied "agent1" false SchedState.initial).2 "agent1"
      = false := by
  have h := start_failure_rollback envDenied SchedState.initial "agent1" false (by decide)
  have herr : (startAgentLoop envDenied "agent1" false SchedState.initial).1
      = Except.error safariMessage :=
    h.2 agentScreen rfl (by decide) rfl (by decide)
  exact ⟨herr, (h.1 safariMessage herr).1, (h.1 safariMessage herr).2⟩

end Observer
